import Mathlib

/-!
Verification development for the `zephymap` e-mail polling engine
(`emailhandler.py`).  The IMAP transport (`imaplib`), the regular-expression
library (`re`) and the kerberos bindings are external collaborators; they are
modelled by explicit server data, concrete predicate functions and oracle
parameters respectively.  Everything else is translated directly from the
source of `EmailHandler`.
-/

namespace Zephymap

/-- A message stored on the modelled IMAP server: its unique identifier,
its seen flag, and its raw header text (opaque to the engine). -/
structure Message where
  uid : Nat
  seen : Bool
  header : String
deriving DecidableEq, Repr

/-- A folder as the modelled IMAP server presents it to the engine.
`name` is the canonical folder name (after the separator normalisation of
`get_folders`, line 76).  `openOk` models the status of `imap.select`
(line 58 / line 91): `false` means the select answers `NO`.  `msgs` is the
message list in sequence order, so the message fetched at index
`nmesgs = length msgs` is the last element.  `uidFetchRaw`, when set,
overrides the raw text the server returns for a `fetch(_, "UID")` request;
`none` means the server answers the well-formed envelope `(UID <uid>)` for
the requested message. -/
structure MFolder where
  name : String
  openOk : Bool
  msgs : List Message
  uidFetchRaw : Option String
deriving DecidableEq, Repr

/-- The modelled IMAP server: the folders `imap.list()` reports, in listing
order, already in canonical-name form. -/
structure Server where
  folders : List MFolder
deriving DecidableEq, Repr

/-- Errors the engine can raise, mirroring the exceptions of the source:
`abort` is `imaplib.IMAP4.abort`, `sslerror code` is an `sslerror` whose
first element is `code` (line 114), `keyError` is the `KeyError` of the
unguarded dict lookup `self.last_uid[folder]` (line 94), `parseError` is
the failure of the `re.search("\(UID (\d+)\)", ...)` match (lines 65/107),
and `protocolError` stands for any other `imaplib`-level error. -/
inductive Err where
  | abort
  | sslerror (code : Nat)
  | keyError
  | parseError
  | protocolError
deriving DecidableEq, Repr

/-- The per-folder high-water-mark store `self.last_uid`, a Python dict
modelled as an association list. -/
abbrev Marks := List (String × Nat)

/-- Dict lookup `m[key]`; `none` models a `KeyError`. -/
def lookupMark : Marks → String → Option Nat
  | [], _ => none
  | (k, v) :: rest, key => if k = key then some v else lookupMark rest key

/-- Dict assignment `m[key] = v`. -/
def setMark : Marks → String → Nat → Marks
  | [], key, v => [(key, v)]
  | (k, w) :: rest, key, v =>
    if k = key then (k, v) :: rest else (k, w) :: setMark rest key v

/-- Bool-valued substring test on character lists: does `pat` occur as a
contiguous run inside the second list? -/
def listIsInfix (pat : List Char) : List Char → Bool
  | [] => pat.isEmpty
  | c :: cs => pat.isPrefixOf (c :: cs) || listIsInfix pat cs

/-- Python's substring containment test `pat in s` (line 57 / line 90),
via the underlying character lists. -/
def strContains (s pat : String) : Bool :=
  listIsInfix pat.data s.data

/-- Folder filtering of `get_folders` (lines 77-78): keep a folder iff the
compiled include pattern finds a match and the compiled exclude pattern does
not.  The compiled `re` patterns are modelled as boolean predicates on the
canonical folder name. -/
def filteredFolders (srv : Server) (inc exc : String → Bool) : List MFolder :=
  srv.folders.filter (fun f => inc f.name && !exc f.name)

/-- The list of names `get_folders` returns (line 80). -/
def get_folders (srv : Server) (inc exc : String → Bool) : List String :=
  (filteredFolders srv inc exc).map MFolder.name

/-- The folders `check` (and `set_last_uids`) actually visit: the
`get_folders` result minus the special-namespace folders skipped by the
`if "[Gmail]" in folder: continue` guard (line 57 / line 90). -/
def polledNames (srv : Server) (inc exc : String → Bool) : List String :=
  (get_folders srv inc exc).filter (fun n => !strContains n "[Gmail]")

/-- Models `re.compile(".*", re.I).search`: an unanchored search for `.*`
succeeds on every string. -/
def include_dot_star (_s : String) : Bool := true

/-- Models `re.compile("^Work$", re.I).search`: anchored at both ends, it
succeeds exactly on the string "Work" up to ASCII case. -/
def exclude_caret_work_dollar (s : String) : Bool :=
  s.data.map Char.toLower == "work".data

/- ---------------------------------------------------------------------
Connection model: `imaplib.IMAP4(...)` / `imaplib.IMAP4_SSL(...)`.
--------------------------------------------------------------------- -/

/-- A protocol session endpoint as built by the `imaplib` constructors. -/
structure ImapConn where
  host : String
  port : Nat
  ssl : Bool
deriving DecidableEq, Repr

/-- Default port of `imaplib.IMAP4` when no port argument is given. -/
def imap4_default_port : Nat := 143

/-- Default port of `imaplib.IMAP4_SSL` when no port argument is given. -/
def imap4_ssl_default_port : Nat := 993

/-- The connection `__init__` opens (lines 25-31): if no port was passed
(Python `if not port:` is also true for an explicit `0`), use 993 when SSL
is requested and 143 otherwise; then connect to `(server, self.port)`. -/
def initialConn (server : String) (port : Option Nat) (use_ssl : Bool) : ImapConn :=
  let p : Nat :=
    match port with
    | none => if use_ssl then 993 else 143
    | some q => if q = 0 then (if use_ssl then 993 else 143) else q
  { host := server, port := p, ssl := use_ssl }

/-- The connection the recovery path opens (lines 117-120):
`IMAP4_SSL(self.server)` or `IMAP4(self.server)` — no port argument, so the
library default applies. -/
def recoveryConn (server : String) (use_ssl : Bool) : ImapConn :=
  { host := server
    port := if use_ssl then imap4_ssl_default_port else imap4_default_port
    ssl := use_ssl }

/- ---------------------------------------------------------------------
GSSAPI callback state machine (`gssauth`, lines 137-160).
--------------------------------------------------------------------- -/

/-- Constant from line 14. -/
def GSS_STATE_STEP : Nat := 0

/-- Constant from line 14. -/
def GSS_STATE_WRAP : Nat := 1

/-- The mutable authentication sub-state of the handler: `gss_step` and
`gss_vc` (the security context, modelled as an opaque numeric identifier). -/
structure GssState where
  gss_step : Nat
  gss_vc : Option Nat
deriving DecidableEq, Repr

/-- The state `__init__` establishes (lines 33-34): `gss_step = 0`,
`gss_vc = None`. -/
def initGssState : GssState := { gss_step := 0, gss_vc := none }

/-- State effect of one `gssauth` invocation (lines 143-156).  The kerberos
library calls are abstracted: `freshVc` is the context
`authGSSClientInit` would create if called, and `stepDone` tells whether
`authGSSClientStep` returns something other than `AUTH_GSS_CONTINUE`.
In the STEP branch the context is created only when `gss_vc` is unset, and
`gss_step` moves to WRAP once the mechanism signals completion; the WRAP
branch (unwrap then wrap) changes neither `gss_step` nor `gss_vc`. -/
def gssauthStep (st : GssState) (freshVc : Nat) (stepDone : Bool) : GssState :=
  if st.gss_step = GSS_STATE_STEP then
    let vc : Nat := st.gss_vc.getD freshVc
    if stepDone then { gss_step := GSS_STATE_WRAP, gss_vc := some vc }
    else { gss_step := GSS_STATE_STEP, gss_vc := some vc }
  else
    st

/-- An authentication exchange: the callback is invoked once per server
challenge; `ds` lists, per invocation, whether the mechanism signalled
completion at that step. -/
def runGssAuth (st : GssState) (freshVc : Nat) : List Bool → GssState
  | [] => st
  | d :: ds => runGssAuth (gssauthStep st freshVc d) freshVc ds

/-- The handler state relevant to reconnection and re-authentication. -/
structure Handler where
  server : String
  imap : ImapConn
  gss : GssState
  gssapi : Bool
deriving DecidableEq, Repr

/-- The handler-state effect of the session rebuild in the recovery path
(lines 117-120): the `imap` connection is replaced by one built without a
port argument; `gss_step` and `gss_vc` are not touched. -/
def recoverRebuild (h : Handler) : Handler :=
  { h with imap := recoveryConn h.server h.imap.ssl }

/- ---------------------------------------------------------------------
UID envelope: the fixed grammar `(UID <int>)` and the regex search
`re.search("\(UID (\d+)\)", uid_text)` followed by `int(...)` used at
lines 64-65 and 106-107.
--------------------------------------------------------------------- -/

/-- Numeric value of an ASCII digit character, as `int` computes it. -/
def digitVal (c : Char) : Nat := c.toNat - 48

/-- Value of a digit string under `int`. -/
def digitsToNat (ds : List Char) : Nat :=
  ds.foldl (fun a c => a * 10 + digitVal c) 0

/-- One attempt to match the regex `\(UID (\d+)\)` at the head of `cs`:
the literal `(UID `, then a maximal non-empty digit run (the capture
group), then `)`.  Maximal munch agrees with the regex here because a
shorter digit run would be followed by a digit, not by `)`. -/
def matchUidAt (cs : List Char) : Option Nat :=
  if "(UID ".data.isPrefixOf cs then
    let rest := cs.drop 5
    let ds := rest.takeWhile Char.isDigit
    if ds.isEmpty then none
    else
      match rest.drop ds.length with
      | ')' :: _ => some (digitsToNat ds)
      | _ => none
  else none

/-- Models `re.search`: try the pattern at every position, left to right. -/
def searchUid : List Char → Option Nat
  | [] => none
  | c :: cs =>
    match matchUidAt (c :: cs) with
    | some n => some n
    | none => searchUid cs

/-- The whole of lines 65/107: search `uid_text` for `\(UID (\d+)\)` and
convert the captured group with `int`; `none` models the exception raised
when the search fails (`.group` on `None`). -/
def parseUid (s : String) : Option Nat := searchUid s.data

/-- Decimal digit list of a natural number, most significant first, as the
modelled server prints UIDs. -/
def natDigits (n : Nat) : List Char :=
  if n < 10 then [Char.ofNat (48 + n)]
  else natDigits (n / 10) ++ [Char.ofNat (48 + n % 10)]
decreasing_by exact Nat.div_lt_self (by omega) (by omega)

/-- The well-formed response envelope an honest server returns for a
`fetch(_, "UID")` request, e.g. `(UID 1234)` (comment at line 64). -/
def mkUidEnvelope (uid : Nat) : String :=
  "(UID " ++ String.mk (natDigits uid) ++ ")"

theorem charOfNat_digit_facts :
    ∀ m, m < 10 → (Char.ofNat (48 + m)).isDigit = true ∧
      (Char.ofNat (48 + m)).toNat = 48 + m := by decide

theorem natDigits_ne_nil (n : Nat) : natDigits n ≠ [] := by
  rw [natDigits]
  split
  · simp
  · simp

theorem natDigits_all_digit :
    ∀ n, ∀ c ∈ natDigits n, c.isDigit = true := by
  intro n
  induction n using Nat.strong_induction_on with
  | _ n ih =>
    rw [natDigits]
    split
    · next h =>
      intro c hc
      simp only [List.mem_singleton] at hc
      subst hc
      exact (charOfNat_digit_facts n h).1
    · next h =>
      intro c hc
      rcases List.mem_append.mp hc with hc | hc
      · exact ih (n / 10) (Nat.div_lt_self (by omega) (by omega)) c hc
      · simp only [List.mem_singleton] at hc
        subst hc
        exact (charOfNat_digit_facts (n % 10) (Nat.mod_lt _ (by omega))).1

theorem digitsToNat_natDigits : ∀ n, digitsToNat (natDigits n) = n := by
  intro n
  induction n using Nat.strong_induction_on with
  | _ n ih =>
    rw [natDigits]
    split
    · next h =>
      simp only [digitsToNat, List.foldl_cons, List.foldl_nil, digitVal]
      rw [(charOfNat_digit_facts n h).2]
      omega
    · next h =>
      simp only [digitsToNat, List.foldl_append, List.foldl_cons, List.foldl_nil]
      have hrec := ih (n / 10) (Nat.div_lt_self (by omega) (by omega))
      simp only [digitsToNat] at hrec
      rw [hrec, digitVal, (charOfNat_digit_facts (n % 10) (Nat.mod_lt _ (by omega))).2]
      omega

theorem takeWhile_append_stop {p : Char → Bool} :
    ∀ (l : List Char) (x : Char) (t : List Char),
      (∀ c ∈ l, p c = true) → p x = false →
      (l ++ x :: t).takeWhile p = l := by
  intro l x t hl hx
  induction l with
  | nil => simp [List.takeWhile, hx]
  | cons c cs ih =>
    have hc : p c = true := hl c (by simp)
    simp only [List.cons_append, List.takeWhile, hc, List.append_eq]
    rw [ih (fun d hd => hl d (by simp [hd]))]

theorem parseUid_mkUidEnvelope (n : Nat) : parseUid (mkUidEnvelope n) = some n := by
  have hdata : (mkUidEnvelope n).data =
      '(' :: 'U' :: 'I' :: 'D' :: ' ' :: (natDigits n ++ [')']) := by
    simp only [mkUidEnvelope, String.data_append]
    rfl
  have hAllDigit := natDigits_all_digit n
  have hTake : (natDigits n ++ [')']).takeWhile Char.isDigit = natDigits n :=
    takeWhile_append_stop (natDigits n) ')' [] hAllDigit (by decide)
  have hDrop : (natDigits n ++ [')']).drop (natDigits n).length = [')'] :=
    List.drop_left _ _
  have hMatch : matchUidAt ((mkUidEnvelope n).data) = some n := by
    rw [hdata]
    simp only [matchUidAt]
    rw [if_pos (by simp [List.isPrefixOf])]
    simp only [List.drop_succ_cons, List.drop_zero]
    rw [hTake]
    rw [if_neg (by simp [List.isEmpty_eq_true, natDigits_ne_nil n])]
    rw [hDrop]
    simp [digitsToNat_natDigits]
  rw [parseUid, hdata]
  rw [hdata] at hMatch
  simp only [searchUid]
  rw [hMatch]

/- ---------------------------------------------------------------------
The engine: `set_last_uids` (lines 50-65) and `check` (lines 82-135).
--------------------------------------------------------------------- -/

/-- The raw text the modelled server returns for the engine's single
`fetch(nmesgs, "UID")` request against a folder, where `nmesgs` is the
message count reported by `select` — i.e. the UID of the last message in
sequence order.  An honest server (`uidFetchRaw = none`) answers the
well-formed envelope; `none` as a result models a fetch against an empty
folder, which the engine never reaches. -/
def fetchUidText (f : MFolder) : Option String :=
  match f.uidFetchRaw with
  | some s => some s
  | none => f.msgs.getLast?.map (fun msg => mkUidEnvelope msg.uid)

/-- A returned message header: the parsed header record (kept opaque as its
raw text) together with the synthetic `folder` field added at line 104. -/
structure Header where
  raw : String
  folder : String
deriving DecidableEq, Repr

/-- The server-side meaning of
`imap.search(None, 'UNSEEN', "(UID lo:99999999)")` (line 94): the messages
flagged unseen whose UID lies in the closed range `[lo, 99999999]`, in
sequence order.  (The code then fetches exactly the returned sequence
numbers, so the model carries the messages themselves.) -/
def searchUnseen (msgs : List Message) (lo : Nat) : List Message :=
  msgs.filter (fun msg => !msg.seen && decide (lo ≤ msg.uid) && decide (msg.uid ≤ 99999999))

/-- The body of the per-folder loop of `check` (lines 91-107), for one
folder that already passed the `[Gmail]` guard.  Returns the headers
collected for this folder, the updated mark store, and the error raised,
if any:
open read-only and skip on `NO` (lines 91-92); look up
`self.last_uid[folder]` — a missing key raises `KeyError` (line 94);
search for unseen messages above the mark and skip when the result is
empty, with no mark update (lines 94-95); fetch and parse the headers and
tag each with the folder name (lines 101-105); finally re-fetch the UID of
message `nmesgs` and assign it to `self.last_uid[folder]` (lines 106-107). -/
def checkFolder (f : MFolder) (m : Marks) : List Header × Marks × Option Err :=
  if f.openOk then
    match lookupMark m f.name with
    | none => ([], m, some .keyError)
    | some mark =>
      let found := searchUnseen f.msgs (mark + 1)
      if found.isEmpty then ([], m, none)
      else
        let hdrs := found.map (fun msg => ({ raw := msg.header, folder := f.name } : Header))
        match fetchUidText f with
        | none => (hdrs, m, some .protocolError)
        | some txt =>
          match parseUid txt with
          | none => (hdrs, m, some .parseError)
          | some v => (hdrs, setMark m f.name v, none)
  else ([], m, none)

/-- The folder loop of `check` (lines 89-107): visit the filtered folders
in listing order, skipping special-namespace folders (line 90); an
exception stops the loop, keeping the mark assignments already made. -/
def checkFolders : List MFolder → Marks → List Header × Marks × Option Err
  | [], m => ([], m, none)
  | f :: fs, m =>
    if strContains f.name "[Gmail]" then checkFolders fs m
    else
      match checkFolder f m with
      | (hs, m', none) =>
        match checkFolders fs m' with
        | (hs', m'', e) => (hs ++ hs', m'', e)
      | (hs, m', some e) => (hs, m', some e)

/-- One fault-free pass of `check()` over the given mark store. -/
def check (srv : Server) (inc exc : String → Bool) (m : Marks) :
    List Header × Marks × Option Err :=
  checkFolders (filteredFolders srv inc exc) m

/-- The per-folder loop of `set_last_uids` (lines 56-65): skip
special-namespace folders; open read-only and skip folders whose select
answers `NO`; a folder with zero messages gets mark `0`; otherwise the UID
of the last message is fetched and parsed from the `(UID <int>)` envelope,
a parse failure aborting the whole call. -/
def setLastUidsFolders : List MFolder → Marks → Except Err Marks
  | [], m => .ok m
  | f :: fs, m =>
    if strContains f.name "[Gmail]" then setLastUidsFolders fs m
    else if f.openOk then
      if f.msgs.length = 0 then setLastUidsFolders fs (setMark m f.name 0)
      else
        match fetchUidText f with
        | none => .error .protocolError
        | some txt =>
          match parseUid txt with
          | none => .error .parseError
          | some v => setLastUidsFolders fs (setMark m f.name v)
    else setLastUidsFolders fs m

/-- The whole of `set_last_uids` (lines 50-65): `self.last_uid = {}`
(line 55) then the per-folder loop over `get_folders`. -/
def set_last_uids (srv : Server) (inc exc : String → Bool) : Except Err Marks :=
  setLastUidsFolders (filteredFolders srv inc exc) []

/-- The retried call `return self.check()` issued by the recovery path
(line 132), after the session rebuild and re-authentication: a fresh
fault-free pass whose own errors propagate. -/
def retryCheck (srv : Server) (inc exc : String → Bool) (m : Marks) :
    Except Err (List Header × Marks) :=
  match check srv inc exc m with
  | (hs, m', none) => .ok (hs, m')
  | (_, _, some e) => .error e

/-- The exception dispatch of lines 109-115: the `except` clause catches
only `imaplib.IMAP4.abort` and `sslerror`; a caught `sslerror` whose code
is not `8` is re-raised (line 114-115); every other exception is not
caught at all.  `true` means the recovery path (rebuild, re-authenticate,
retry) runs. -/
def recoveryHandles : Err → Bool
  | .abort => true
  | .sslerror code => code == 8
  | _ => false

/-- A `check()` call during which an exception `e` is raised by the
transport after the first `k` filtered folders have been fully processed.
If the body itself raised earlier (e.g. a `KeyError`), that exception is
the one dispatched.  When the dispatch of lines 109-115 catches the
exception, the session is rebuilt, the handler re-authenticates, and
`check()` is re-run from the beginning over the mutated mark store, the
first attempt's partial header list being discarded (line 132); otherwise
the exception propagates to the caller. -/
def checkWithFault (srv : Server) (inc exc : String → Bool) (m : Marks)
    (k : Nat) (e : Err) : Except Err (List Header × Marks) :=
  let attempt := checkFolders ((filteredFolders srv inc exc).take k) m
  let eEff : Err :=
    match attempt.2.2 with
    | some e1 => e1
    | none => e
  if recoveryHandles eEff then retryCheck srv inc exc attempt.2.1
  else .error eEff

/-- A `check()` call interrupted by a transient transport failure
(`imaplib.IMAP4.abort`) after the first `k` filtered folders have been
fully processed, followed by the recovery retry. -/
def checkWithTransientAfter (srv : Server) (inc exc : String → Bool)
    (m : Marks) (k : Nat) : Except Err (List Header × Marks) :=
  checkWithFault srv inc exc m k .abort

/-- The IMAP well-formedness invariant of a folder on an honest server:
UIDs are strictly increasing in sequence order (so the last message in
sequence order carries the largest UID), and `fetch(_, "UID")` answers the
well-formed `(UID <int>)` envelope. -/
def FolderWF (f : MFolder) : Prop :=
  f.uidFetchRaw = none ∧ (f.msgs.map Message.uid).Pairwise (· < ·)

/-- Every folder of the server is well-formed. -/
def ServerWF (srv : Server) : Prop :=
  ∀ f ∈ srv.folders, FolderWF f

/-- The mark store after a fault-free `check()` pass. -/
def checkMarks (srv : Server) (inc exc : String → Bool) (m : Marks) : Marks :=
  (check srv inc exc m).2.1

/-- The mark store after a sequence of `check()` calls, one per server
state in `srvs` (the mailbox contents may change between calls). -/
def runChecks (inc exc : String → Bool) : List Server → Marks → Marks
  | [], m => m
  | s :: ss, m => runChecks inc exc ss (checkMarks s inc exc m)

/- ---------------------------------------------------------------------
Helper lemmas about the mark store and the per-folder loop body.
--------------------------------------------------------------------- -/

theorem lookupMark_setMark (m : Marks) (k n : String) (v : Nat) :
    lookupMark (setMark m k v) n = if k = n then some v else lookupMark m n := by
  induction m with
  | nil => simp [setMark, lookupMark]
  | cons p rest ih =>
    obtain ⟨k', w⟩ := p
    by_cases h1 : k' = k
    · subst h1
      by_cases h2 : k' = n <;> simp [setMark, lookupMark, h2]
    · simp only [setMark, if_neg h1, lookupMark, ih]
      by_cases h2 : k' = n
      · have hkn : ¬ k = n := fun h => h1 (h2.trans h.symm)
        simp [h2, hkn]
      · simp [h2]

theorem mem_of_getLast_opt {α : Type} {l : List α} {a : α}
    (h : l.getLast? = some a) : a ∈ l := by
  obtain ⟨hne, rfl⟩ := List.mem_getLast?_eq_getLast (Option.mem_def.mpr h)
  exact List.getLast_mem hne

theorem getLast_opt_of_ne_nil {α : Type} (l : List α) (hl : l ≠ []) :
    ∃ a, l.getLast? = some a := by
  cases h : l.getLast? with
  | some a => exact ⟨a, rfl⟩
  | none => exact absurd (List.getLast?_eq_none_iff.mp h) hl

/-- In a folder whose UIDs strictly increase in sequence order, the last
message in sequence order carries the largest UID. -/
theorem uid_le_getLast :
    ∀ (msgs : List Message), (msgs.map Message.uid).Pairwise (· < ·) →
      ∀ msg ∈ msgs, ∀ last, msgs.getLast? = some last → msg.uid ≤ last.uid := by
  intro msgs
  induction msgs with
  | nil => intro _ msg hm; simp at hm
  | cons a t ih =>
    intro hp msg hm last hl
    cases t with
    | nil =>
      simp only [List.mem_singleton] at hm
      simp only [List.getLast?_singleton, Option.some.injEq] at hl
      subst hm; subst hl; exact Nat.le_refl _
    | cons b t' =>
      rw [List.getLast?_cons_cons] at hl
      simp only [List.map_cons] at hp
      have hp' := List.pairwise_cons.mp hp
      rcases List.mem_cons.mp hm with rfl | hmem
      · have hlmem : last ∈ b :: t' := mem_of_getLast_opt hl
        have huid : last.uid ∈ Message.uid b :: t'.map Message.uid := by
          rcases List.mem_cons.mp hlmem with rfl | hm2
          · exact List.mem_cons_self _ _
          · exact List.mem_cons_of_mem _ (List.mem_map.mpr ⟨last, hm2, rfl⟩)
        have := hp'.1 _ huid
        omega
      · refine ih ?_ msg hmem last hl
        rw [List.map_cons]
        exact hp'.2

theorem checkFolder_closed (f : MFolder) (m : Marks) (h : f.openOk = false) :
    checkFolder f m = ([], m, none) := by
  simp [checkFolder, h]

theorem checkFolder_skip_empty (f : MFolder) (m : Marks) (v : Nat)
    (ho : f.openOk = true) (hl : lookupMark m f.name = some v)
    (hs : searchUnseen f.msgs (v + 1) = []) :
    checkFolder f m = ([], m, none) := by
  simp [checkFolder, ho, hl, hs]

/-- A folder with a stored mark and a non-empty unseen search is fully
processed: its headers are returned tagged with the folder name and its
mark is assigned the UID of the last message in sequence order, a value
strictly above the old mark. -/
theorem checkFolder_advances (f : MFolder) (m : Marks) (v : Nat)
    (hwf : FolderWF f) (ho : f.openOk = true)
    (hl : lookupMark m f.name = some v)
    (hne : searchUnseen f.msgs (v + 1) ≠ []) :
    ∃ last, f.msgs.getLast? = some last ∧
      checkFolder f m =
        ((searchUnseen f.msgs (v + 1)).map
          (fun msg => ({ raw := msg.header, folder := f.name } : Header)),
         setMark m f.name last.uid, none) ∧
      (∀ msg ∈ f.msgs, msg.uid ≤ last.uid) ∧ v < last.uid := by
  have hmsgs : f.msgs ≠ [] := by
    intro h
    exact hne (by simp [searchUnseen, h])
  obtain ⟨last, hlast⟩ := getLast_opt_of_ne_nil _ hmsgs
  have hmax : ∀ msg ∈ f.msgs, msg.uid ≤ last.uid :=
    fun msg hm => uid_le_getLast _ hwf.2 msg hm last hlast
  have hvlt : v < last.uid := by
    obtain ⟨msg, hmem⟩ := List.exists_mem_of_ne_nil _ hne
    obtain ⟨hmsg, hpred⟩ := List.mem_filter.mp hmem
    have h1 : v + 1 ≤ msg.uid := by
      simp only [Bool.and_eq_true, decide_eq_true_eq] at hpred
      exact hpred.1.2
    have h2 := hmax msg hmsg
    omega
  have hempty : (searchUnseen f.msgs (v + 1)).isEmpty = false := by
    cases h : searchUnseen f.msgs (v + 1) with
    | nil => exact absurd h hne
    | cons x xs => rfl
  have hfetch : fetchUidText f = some (mkUidEnvelope last.uid) := by
    simp [fetchUidText, hwf.1, hlast]
  refine ⟨last, hlast, ?_, hmax, hvlt⟩
  simp only [checkFolder, ho, if_true, hl, hempty, Bool.false_eq_true, if_false, hfetch,
    parseUid_mkUidEnvelope]

/-- Every header the loop body returns is tagged with the folder's name. -/
theorem checkFolder_headers_tag (f : MFolder) (m : Marks) :
    ∀ hd ∈ (checkFolder f m).1, hd.folder = f.name := by
  intro hd hmem
  simp only [checkFolder] at hmem
  split at hmem
  · split at hmem
    · simp at hmem
    · split at hmem
      · simp at hmem
      · split at hmem
        · obtain ⟨msg, _, rfl⟩ := List.mem_map.mp hmem
          rfl
        · split at hmem
          · obtain ⟨msg, _, rfl⟩ := List.mem_map.mp hmem
            rfl
          · obtain ⟨msg, _, rfl⟩ := List.mem_map.mp hmem
            rfl
  · simp at hmem

/-- On a well-formed folder the loop body raises no exception as long as
the folder, if it opens, has a stored mark. -/
theorem checkFolder_no_error (f : MFolder) (m : Marks) (hwf : FolderWF f)
    (hm : f.openOk = true → (lookupMark m f.name).isSome = true) :
    (checkFolder f m).2.2 = none := by
  cases ho : f.openOk with
  | false => rw [checkFolder_closed f m ho]
  | true =>
    obtain ⟨v, hv⟩ := Option.isSome_iff_exists.mp (hm ho)
    by_cases hs : searchUnseen f.msgs (v + 1) = []
    · rw [checkFolder_skip_empty f m v ho hv hs]
    · obtain ⟨last, _, heq, _, _⟩ := checkFolder_advances f m v hwf ho hv hs
      rw [heq]

/-- The loop body never decreases any stored mark. -/
theorem checkFolder_mark_mono (f : MFolder) (m : Marks) (hwf : FolderWF f)
    (F : String) (v : Nat) (hv : lookupMark m F = some v) :
    ∃ v', lookupMark (checkFolder f m).2.1 F = some v' ∧ v ≤ v' := by
  cases ho : f.openOk with
  | false => rw [checkFolder_closed f m ho]; exact ⟨v, hv, Nat.le_refl v⟩
  | true =>
    cases hl : lookupMark m f.name with
    | none =>
      simp only [checkFolder, ho, if_true, hl]
      exact ⟨v, hv, Nat.le_refl v⟩
    | some mark =>
      by_cases hs : searchUnseen f.msgs (mark + 1) = []
      · rw [checkFolder_skip_empty f m mark ho hl hs]
        exact ⟨v, hv, Nat.le_refl v⟩
      · obtain ⟨last, _, heq, _, hlt⟩ := checkFolder_advances f m mark hwf ho hl hs
        rw [heq]
        simp only
        rw [lookupMark_setMark]
        by_cases hF : f.name = F
        · subst hF
          rw [if_pos rfl]
          refine ⟨last.uid, rfl, ?_⟩
          rw [hv] at hl
          have : v = mark := by injection hl
          omega
        · rw [if_neg hF]
          exact ⟨v, hv, Nat.le_refl v⟩

/-- The folder loop never decreases any stored mark, whether it completes
or stops at an exception. -/
theorem checkFolders_mark_mono :
    ∀ (L : List MFolder), (∀ f ∈ L, FolderWF f) →
      ∀ (m : Marks) (F : String) (v : Nat), lookupMark m F = some v →
        ∃ v', lookupMark (checkFolders L m).2.1 F = some v' ∧ v ≤ v' := by
  intro L
  induction L with
  | nil => intro _ m F v hv; exact ⟨v, hv, Nat.le_refl v⟩
  | cons f fs ih =>
    intro hwf m F v hv
    simp only [checkFolders]
    split
    · exact ih (fun g hg => hwf g (by simp [hg])) m F v hv
    · obtain ⟨v1, hv1, hle1⟩ :=
        checkFolder_mark_mono f m (hwf f (by simp)) F v hv
      rcases hcf : checkFolder f m with ⟨hs, m', e⟩
      rw [hcf] at hv1
      cases e with
      | none =>
        obtain ⟨v2, hv2, hle2⟩ :=
          ih (fun g hg => hwf g (by simp [hg])) m' F v1 hv1
        exact ⟨v2, hv2, Nat.le_trans hle1 hle2⟩
      | some e => exact ⟨v1, hv1, hle1⟩

/-- A single `check()` pass never decreases any stored mark. -/
theorem check_mark_mono (srv : Server) (inc exc : String → Bool)
    (hwf : ServerWF srv) (m : Marks) (F : String) (v : Nat)
    (hv : lookupMark m F = some v) :
    ∃ v', lookupMark (checkMarks srv inc exc m) F = some v' ∧ v ≤ v' := by
  refine checkFolders_mark_mono _ ?_ m F v hv
  intro f hf
  exact hwf f (List.mem_filter.mp hf).1

/-- A folder loop over folders none of which has an unseen message above
its stored mark returns no headers, changes no mark and raises nothing. -/
theorem checkFolders_all_quiet :
    ∀ (L : List MFolder) (m : Marks),
      (∀ f ∈ L, strContains f.name "[Gmail]" = false → f.openOk = true →
        ∃ v, lookupMark m f.name = some v ∧
          ∀ msg ∈ f.msgs, msg.seen = false → msg.uid ≤ v) →
      checkFolders L m = ([], m, none) := by
  intro L
  induction L with
  | nil => intro m _; rfl
  | cons f fs ih =>
    intro m h
    simp only [checkFolders]
    split
    · exact ih m (fun g hg => h g (by simp [hg]))
    · next hgm =>
      have hg' : strContains f.name "[Gmail]" = false := by
        simpa using hgm
      have hcf : checkFolder f m = ([], m, none) := by
        cases ho : f.openOk with
        | false => exact checkFolder_closed f m ho
        | true =>
          obtain ⟨v, hv, hbound⟩ := h f (by simp) hg' ho
          refine checkFolder_skip_empty f m v ho hv ?_
          apply List.filter_eq_nil_iff.mpr
          intro msg hmsg
          cases hs : msg.seen with
          | true => simp [hs]
          | false =>
            have hub := hbound msg hmsg hs
            simp only [hs, Bool.not_false, Bool.true_and, Bool.and_eq_true,
              decide_eq_true_eq, not_and]
            omega
      rw [hcf]
      have hrest := ih m (fun g hg => h g (by simp [hg]))
      simp [hrest]

/- ---------------------------------------------------------------------
Concrete fixtures shared by the witnesses below.
--------------------------------------------------------------------- -/

/-- A permissive include predicate, like the default pattern. -/
def incAll (_s : String) : Bool := true

/-- An exclude predicate matching nothing. -/
def excNone (_s : String) : Bool := false

/-- A two-message folder named "A"; UID 2 is unseen. -/
def folderA : MFolder :=
  { name := "A", openOk := true,
    msgs := [ { uid := 1, seen := true, header := "a1" },
              { uid := 2, seen := false, header := "a2" } ],
    uidFetchRaw := none }

/-- A one-message folder named "B"; UID 5 is unseen. -/
def folderB : MFolder :=
  { name := "B", openOk := true,
    msgs := [ { uid := 5, seen := false, header := "b5" } ],
    uidFetchRaw := none }

/-- A server with the two folders above. -/
def srvAB : Server := { folders := [folderA, folderB] }

/- ---------------------------------------------------------------------
The claims.
--------------------------------------------------------------------- -/

/-- C1: for every folder F and every sequence of `check()` calls on an
initialized handler (over well-formed server states, whose contents may
change between calls), the stored high-water mark `mark[F]` is
monotonically non-decreasing across the sequence: it stays present and
its final value is at least its initial value, each `check()` leaving it
at least where it was. -/
theorem C1_marks_monotone (inc exc : String → Bool)
    (srvs : List Server) (hwf : ∀ s ∈ srvs, ServerWF s)
    (m : Marks) (F : String) (v : Nat) (hv : lookupMark m F = some v) :
    ∃ v', lookupMark (runChecks inc exc srvs m) F = some v' ∧ v ≤ v' := by
  induction srvs generalizing m v with
  | nil => exact ⟨v, hv, Nat.le_refl v⟩
  | cons s ss ih =>
    simp only [runChecks]
    obtain ⟨v1, hv1, hle1⟩ :=
      check_mark_mono s inc exc (hwf s (by simp)) m F v hv
    obtain ⟨v2, hv2, hle2⟩ :=
      ih (fun t ht => hwf t (by simp [ht])) (checkMarks s inc exc m) v1 hv1
    exact ⟨v2, hv2, Nat.le_trans hle1 hle2⟩

theorem C1_marks_monotone_witness :
    ∃ v', lookupMark (runChecks incAll excNone [srvAB] [("A", 1), ("B", 0)]) "A"
        = some v' ∧ 1 ≤ v' :=
  C1_marks_monotone incAll excNone [srvAB]
    (by simp only [ServerWF, FolderWF]; decide) [("A", 1), ("B", 0)] "A" 1 rfl

/-- C3: in every state where no polled folder has an unseen message with
UID above its stored mark, `check()` returns the empty header sequence,
leaves every mark unchanged, and raises nothing: a folder whose
unseen-search result is empty gets no mark update. -/
theorem C3_quiet_check_no_effect (srv : Server) (inc exc : String → Bool) (m : Marks)
    (h : ∀ f ∈ filteredFolders srv inc exc,
      strContains f.name "[Gmail]" = false → f.openOk = true →
      ∃ v, lookupMark m f.name = some v ∧
        ∀ msg ∈ f.msgs, msg.seen = false → msg.uid ≤ v) :
    check srv inc exc m = ([], m, none) :=
  checkFolders_all_quiet _ m h

/-- C2: if a transient transport failure interrupts `check()` after folder
A has been fully processed and its mark advanced, but before folder B is
processed, the recovery retry re-runs `check()` from the beginning and the
call returns headers only from B onward: no message of A accounted for by
its advanced mark is returned again. -/
theorem C2_recovery_no_duplicates (srv : Server) (inc exc : String → Bool)
    (m : Marks) (A B : MFolder)
    (hfilt : filteredFolders srv inc exc = [A, B])
    (hwfA : FolderWF A) (hwfB : FolderWF B)
    (hgA : strContains A.name "[Gmail]" = false)
    (hgB : strContains B.name "[Gmail]" = false)
    (hAB : A.name ≠ B.name)
    (hopenA : A.openOk = true)
    (vA : Nat) (hmA : lookupMark m A.name = some vA)
    (hneA : searchUnseen A.msgs (vA + 1) ≠ [])
    (hmB : B.openOk = true → (lookupMark m B.name).isSome = true) :
    ∃ hs m', checkWithTransientAfter srv inc exc m 1 = .ok (hs, m') ∧
      ∀ hd ∈ hs, hd.folder = B.name := by
  obtain ⟨lastA, hlastA, heqA, hmaxA, hltA⟩ :=
    checkFolder_advances A m vA hwfA hopenA hmA hneA
  set m1 : Marks := setMark m A.name lastA.uid with hm1
  have hskipA : checkFolder A m1 = ([], m1, none) := by
    refine checkFolder_skip_empty A m1 lastA.uid hopenA ?_ ?_
    · rw [hm1, lookupMark_setMark, if_pos rfl]
    · apply List.filter_eq_nil_iff.mpr
      intro msg hmsg
      have hle := hmaxA msg hmsg
      simp only [Bool.and_eq_true, decide_eq_true_eq]
      rintro ⟨⟨-, h1⟩, -⟩
      omega
  rcases hB : checkFolder B m1 with ⟨hsB, mB, eB⟩
  have heB : eB = none := by
    have hne := checkFolder_no_error B m1 hwfB (fun hoB => by
      rw [hm1, lookupMark_setMark, if_neg hAB]
      exact hmB hoB)
    rw [hB] at hne
    exact hne
  subst heB
  have htagsB : ∀ hd ∈ hsB, hd.folder = B.name := by
    intro hd hmem
    exact checkFolder_headers_tag B m1 hd (by rw [hB]; exact hmem)
  have hattempt : checkFolders ((filteredFolders srv inc exc).take 1) m
      = ((searchUnseen A.msgs (vA + 1)).map
          (fun msg => ({ raw := msg.header, folder := A.name } : Header)),
         m1, none) := by
    rw [hfilt]
    simp [checkFolders, hgA, heqA]
  have hretry : check srv inc exc m1 = (hsB, mB, none) := by
    unfold check
    rw [hfilt]
    simp [checkFolders, hgA, hgB, hskipA, hB]
  have hfinal : checkWithTransientAfter srv inc exc m 1 = .ok (hsB, mB) := by
    simp only [checkWithTransientAfter, checkWithFault, hattempt, recoveryHandles,
      if_true, retryCheck, hretry]
  exact ⟨hsB, mB, hfinal, htagsB⟩

theorem C2_recovery_no_duplicates_witness :
    ∃ hs m', checkWithTransientAfter srvAB incAll excNone [("A", 1), ("B", 0)] 1
        = .ok (hs, m') ∧ ∀ hd ∈ hs, hd.folder = folderB.name :=
  C2_recovery_no_duplicates srvAB incAll excNone [("A", 1), ("B", 0)]
    folderA folderB (by decide) (by simp only [FolderWF]; decide)
    (by simp only [FolderWF]; decide) (by decide) (by decide) (by decide) rfl
    1 rfl (by decide) (by decide)

theorem C3_quiet_check_no_effect_witness :
    check srvAB incAll excNone [("A", 2), ("B", 5)]
      = ([], [("A", 2), ("B", 5)], none) :=
  C3_quiet_check_no_effect srvAB incAll excNone [("A", 2), ("B", 5)] (by
    intro f hf _ _
    have hf' : f = folderA ∨ f = folderB := by
      simpa [filteredFolders, srvAB, incAll, excNone] using hf
    rcases hf' with rfl | rfl
    · exact ⟨2, rfl, by decide⟩
    · exact ⟨5, rfl, by decide⟩)

/-- Correctness of the `set_last_uids` folder loop over an honest server
with distinct folder names: it succeeds, every visited folder's mark is
set to 0 when the folder is empty and to the UID of its last message
otherwise, and the entries of folders it does not visit are untouched. -/
theorem setLastUidsFolders_spec :
    ∀ (L : List MFolder) (m : Marks),
      (∀ f ∈ L, f.uidFetchRaw = none) →
      (L.map MFolder.name).Nodup →
      ∃ m', setLastUidsFolders L m = .ok m' ∧
        (∀ f ∈ L, strContains f.name "[Gmail]" = false → f.openOk = true →
          lookupMark m' f.name = some ((f.msgs.getLast?.map Message.uid).getD 0)) ∧
        (∀ n, (∀ f ∈ L, f.name ≠ n) → lookupMark m' n = lookupMark m n) := by
  intro L
  induction L with
  | nil =>
    intro m _ _
    exact ⟨m, rfl, by simp, fun n _ => rfl⟩
  | cons f fs ih =>
    intro m hhon hnodup
    have hhon' : ∀ g ∈ fs, g.uidFetchRaw = none := fun g hg => hhon g (by simp [hg])
    simp only [List.map_cons, List.nodup_cons] at hnodup
    have hfresh : ∀ g ∈ fs, g.name ≠ f.name := by
      intro g hg hEq
      exact hnodup.1 (List.mem_map.mpr ⟨g, hg, hEq⟩)
    by_cases hg : strContains f.name "[Gmail]" = true
    · obtain ⟨m', hok, hmarks, hpres⟩ := ih m hhon' hnodup.2
      refine ⟨m', ?_, ?_, ?_⟩
      · simp only [setLastUidsFolders, hg, if_true]
        exact hok
      · intro g hgmem hgg hgo
        rcases List.mem_cons.mp hgmem with rfl | hgmem
        · rw [hg] at hgg
          exact absurd hgg (by simp)
        · exact hmarks g hgmem hgg hgo
      · intro n hn
        exact hpres n (fun g hgm => hn g (by simp [hgm]))
    · have hg' : strContains f.name "[Gmail]" = false := by simpa using hg
      cases ho : f.openOk with
      | false =>
        obtain ⟨m', hok, hmarks, hpres⟩ := ih m hhon' hnodup.2
        refine ⟨m', ?_, ?_, ?_⟩
        · simp only [setLastUidsFolders, hg', Bool.false_eq_true, if_false, ho]
          exact hok
        · intro g hgmem hgg hgo
          rcases List.mem_cons.mp hgmem with rfl | hgmem
          · rw [ho] at hgo
            exact absurd hgo (by simp)
          · exact hmarks g hgmem hgg hgo
        · intro n hn
          exact hpres n (fun g hgm => hn g (by simp [hgm]))
      | true =>
        by_cases hnil : f.msgs.length = 0
        · have hmsgs : f.msgs = [] := List.length_eq_zero.mp hnil
          obtain ⟨m', hok, hmarks, hpres⟩ := ih (setMark m f.name 0) hhon' hnodup.2
          refine ⟨m', ?_, ?_, ?_⟩
          · simp only [setLastUidsFolders, hg', Bool.false_eq_true, if_false, ho,
              if_true, hnil]
            exact hok
          · intro g hgmem hgg hgo
            rcases List.mem_cons.mp hgmem with rfl | hgmem
            · rw [hpres g.name (fun t ht => hfresh t ht), lookupMark_setMark,
                if_pos rfl, hmsgs]
              rfl
            · exact hmarks g hgmem hgg hgo
          · intro n hn
            rw [hpres n (fun g hgm => hn g (by simp [hgm])), lookupMark_setMark,
              if_neg (hn f (by simp))]
        · have hmsgs : f.msgs ≠ [] := fun hEq => hnil (by rw [hEq]; rfl)
          obtain ⟨last, hlast⟩ := getLast_opt_of_ne_nil _ hmsgs
          have hfetch : fetchUidText f = some (mkUidEnvelope last.uid) := by
            simp [fetchUidText, hhon f (by simp), hlast]
          obtain ⟨m', hok, hmarks, hpres⟩ :=
            ih (setMark m f.name last.uid) hhon' hnodup.2
          refine ⟨m', ?_, ?_, ?_⟩
          · simp only [setLastUidsFolders, hg', Bool.false_eq_true, if_false, ho,
              if_true, hnil, hfetch, parseUid_mkUidEnvelope]
            exact hok
          · intro g hgmem hgg hgo
            rcases List.mem_cons.mp hgmem with rfl | hgmem
            · rw [hpres g.name (fun t ht => hfresh t ht), lookupMark_setMark,
                if_pos rfl, hlast]
              rfl
            · exact hmarks g hgmem hgg hgo
          · intro n hn
            rw [hpres n (fun g hgm => hn g (by simp [hgm])), lookupMark_setMark,
              if_neg (hn f (by simp))]

/-- C6: after initialization against an honest server, every successfully
opened non-special folder of the filtered listing holds a mark: 0 when the
server reports zero messages, and otherwise the integer UID of the last
message in sequence order, parsed from the fixed envelope `(UID <int>)`. -/
theorem C6_initial_marks (srv : Server) (inc exc : String → Bool)
    (hhonest : ∀ f ∈ filteredFolders srv inc exc, f.uidFetchRaw = none)
    (hnodup : ((filteredFolders srv inc exc).map MFolder.name).Nodup) :
    ∃ marks, set_last_uids srv inc exc = .ok marks ∧
      ∀ f ∈ filteredFolders srv inc exc,
        strContains f.name "[Gmail]" = false → f.openOk = true →
        lookupMark marks f.name = some ((f.msgs.getLast?.map Message.uid).getD 0) := by
  obtain ⟨m', hok, hmarks, _⟩ := setLastUidsFolders_spec _ [] hhonest hnodup
  exact ⟨m', hok, hmarks⟩

/-- A server holding one empty folder and one folder whose last message
has UID 4821, as in the spec's initialization example. -/
def srvInit : Server :=
  { folders := [
      { name := "Empty", openOk := true, msgs := [], uidFetchRaw := none },
      { name := "INBOX", openOk := true,
        msgs := [ { uid := 4820, seen := true, header := "h1" },
                  { uid := 4821, seen := false, header := "h2" } ],
        uidFetchRaw := none } ] }

theorem C6_initial_marks_witness :
    ∃ marks, set_last_uids srvInit incAll excNone = .ok marks ∧
      ∀ f ∈ filteredFolders srvInit incAll excNone,
        strContains f.name "[Gmail]" = false → f.openOk = true →
        lookupMark marks f.name = some ((f.msgs.getLast?.map Message.uid).getD 0) :=
  C6_initial_marks srvInit incAll excNone (by decide) (by decide)

/-- C7: if during initialization the UID fetch for a folder's last message
returns text not matching the `(UID <int>)` envelope, `set_last_uids`
fails with the parse error and the whole initialization call is aborted —
unlike a folder-open failure, which only skips that folder (here the first
folder fails to open and is skipped before the malformed response of the
second aborts the call). -/
theorem C7_malformed_uid_aborts (bad : String) (hbad : parseUid bad = none)
    (gname fname : String) (msgs0 msgs1 : List Message)
    (hlen : msgs1.length ≠ 0)
    (hgG : strContains gname "[Gmail]" = false)
    (hgF : strContains fname "[Gmail]" = false)
    (inc exc : String → Bool)
    (hincG : inc gname = true) (hexcG : exc gname = false)
    (hincF : inc fname = true) (hexcF : exc fname = false) :
    set_last_uids
      { folders := [
          { name := gname, openOk := false, msgs := msgs0, uidFetchRaw := none },
          { name := fname, openOk := true, msgs := msgs1, uidFetchRaw := some bad } ] }
      inc exc = .error .parseError := by
  simp [set_last_uids, filteredFolders, List.filter, setLastUidsFolders, fetchUidText,
    hincG, hexcG, hincF, hexcF, hgG, hgF, hlen, hbad]

theorem C7_malformed_uid_aborts_witness :
    set_last_uids
      { folders := [
          { name := "Broken", openOk := false, msgs := [], uidFetchRaw := none },
          { name := "INBOX", openOk := true,
            msgs := [ { uid := 1, seen := true, header := "x" } ],
            uidFetchRaw := some "garbage" } ] }
      incAll excNone = .error .parseError :=
  C7_malformed_uid_aborts "garbage" (by decide) "Broken" "INBOX" []
    [ { uid := 1, seen := true, header := "x" } ]
    (by decide) (by decide) (by decide) incAll excNone rfl rfl rfl rfl

/-- C8: a folder whose open fails during initialization receives no mark
entry, and when the same folder opens successfully during a later
`check()` while holding unseen mail, the unguarded lookup
`self.last_uid[folder] + 1` hits the missing key and `check()` fails with
the key error — a state the spec treats as recoverable. -/
theorem C8_missing_mark_keyerror (fname : String) (msgs0 msgs1 : List Message)
    (inc exc : String → Bool)
    (hinc : inc fname = true) (hexc : exc fname = false)
    (hg : strContains fname "[Gmail]" = false)
    (_hunseen : ∃ msg ∈ msgs1, msg.seen = false) :
    (set_last_uids
        { folders := [
            { name := fname, openOk := false, msgs := msgs0, uidFetchRaw := none } ] }
        inc exc = .ok [] ∧
      lookupMark [] fname = none) ∧
    check
        { folders := [
            { name := fname, openOk := true, msgs := msgs1, uidFetchRaw := none } ] }
        inc exc []
      = ([], [], some .keyError) := by
  refine ⟨⟨?_, rfl⟩, ?_⟩
  · simp [set_last_uids, filteredFolders, List.filter, setLastUidsFolders,
      hinc, hexc, hg]
  · simp [check, filteredFolders, List.filter, checkFolders, checkFolder,
      hinc, hexc, hg, lookupMark]

theorem C8_missing_mark_keyerror_witness :
    (set_last_uids
        { folders := [
            { name := "INBOX", openOk := false, msgs := [], uidFetchRaw := none } ] }
        incAll excNone = .ok [] ∧
      lookupMark [] "INBOX" = none) ∧
    check
        { folders := [
            { name := "INBOX", openOk := true,
              msgs := [ { uid := 5, seen := false, header := "h" } ],
              uidFetchRaw := none } ] }
        incAll excNone []
      = ([], [], some .keyError) :=
  C8_missing_mark_keyerror "INBOX" [] [ { uid := 5, seen := false, header := "h" } ]
    incAll excNone rfl rfl (by decide)
    ⟨{ uid := 5, seen := false, header := "h" }, by decide, rfl⟩

/-- C4: during `check()`, only a session abort or the transient socket
error condition (an `sslerror` with code 8) triggers the recovery path
(rebuild session, re-authenticate, retry); every other error class — an
`sslerror` with a different code, protocol-level errors, parse failures,
missing-key lookups — propagates to the caller uncaught. -/
theorem C4_error_dispatch (srv : Server) (inc exc : String → Bool) (m : Marks)
    (k : Nat) (e : Err)
    (hclean : (checkFolders ((filteredFolders srv inc exc).take k) m).2.2 = none) :
    (¬(e = .abort ∨ e = .sslerror 8) →
      checkWithFault srv inc exc m k e = .error e) ∧
    ((e = .abort ∨ e = .sslerror 8) →
      checkWithFault srv inc exc m k e =
        retryCheck srv inc exc
          (checkFolders ((filteredFolders srv inc exc).take k) m).2.1) := by
  constructor
  · intro hne
    have hre : recoveryHandles e = false := by
      cases e with
      | abort => exact absurd (Or.inl rfl) hne
      | sslerror c =>
        by_cases hc : c = 8
        · exact absurd (Or.inr (by rw [hc])) hne
        · simp [recoveryHandles, hc]
      | keyError => rfl
      | parseError => rfl
      | protocolError => rfl
    simp only [checkWithFault, hclean, hre, Bool.false_eq_true, if_false]
  · intro htrans
    have hre : recoveryHandles e = true := by
      rcases htrans with rfl | rfl <;> rfl
    simp only [checkWithFault, hclean, hre, if_true]

theorem C4_error_dispatch_witness :
    (¬(Err.parseError = .abort ∨ Err.parseError = .sslerror 8) →
      checkWithFault srvAB incAll excNone [("A", 1), ("B", 0)] 0 .parseError
        = .error .parseError) ∧
    ((Err.parseError = .abort ∨ Err.parseError = .sslerror 8) →
      checkWithFault srvAB incAll excNone [("A", 1), ("B", 0)] 0 .parseError =
        retryCheck srvAB incAll excNone
          (checkFolders ((filteredFolders srvAB incAll excNone).take 0)
            [("A", 1), ("B", 0)]).2.1) :=
  C4_error_dispatch srvAB incAll excNone [("A", 1), ("B", 0)] 0 .parseError rfl

/-- The folder listing of the C5 example, as canonical names. -/
def srvC5 : Server :=
  { folders := [
      { name := "INBOX", openOk := true, msgs := [], uidFetchRaw := none },
      { name := "INBOX/Archive", openOk := true, msgs := [], uidFetchRaw := none },
      { name := "[Gmail]/All Mail", openOk := true, msgs := [], uidFetchRaw := none },
      { name := "Work", openOk := true, msgs := [], uidFetchRaw := none } ] }

/-- C5: given the raw folder list
`["INBOX", "INBOX/Archive", "[Gmail]/All Mail", "Work"]`, include pattern
`.*` and exclude pattern `^Work$`, the folders selected for polling are
exactly INBOX and INBOX/Archive: "Work" is removed by the exclude pattern
and the special-namespace folder "[Gmail]/All Mail" is excluded regardless
of the filter patterns. -/
theorem C5_folder_filtering :
    polledNames srvC5 include_dot_star exclude_caret_work_dollar
      = ["INBOX", "INBOX/Archive"] ∧
    ∀ inc exc : String → Bool, "[Gmail]/All Mail" ∉ polledNames srvC5 inc exc := by
  constructor
  · decide
  · intro inc exc hmem
    have hpred := (List.mem_filter.mp hmem).2
    have hc : strContains "[Gmail]/All Mail" "[Gmail]" = true := by decide
    rw [hc] at hpred
    exact absurd hpred (by decide)

/-- C9: the recovery path rebuilds the session from the configured host
only; a handler constructed with an explicit non-default port reconnects
on the library's default port after a transient failure, unlike the
initial connection, which uses the configured port. -/
theorem C9_recovery_drops_port (server : String) (p : Nat) (ssl : Bool)
    (hp : p ≠ 0)
    (hdef : p ≠ (if ssl then imap4_ssl_default_port else imap4_default_port)) :
    (initialConn server (some p) ssl).port = p ∧
    (recoveryConn server ssl).port
      = (if ssl then imap4_ssl_default_port else imap4_default_port) ∧
    (recoveryConn server ssl).port ≠ (initialConn server (some p) ssl).port := by
  refine ⟨?_, rfl, fun hEq => hdef ?_⟩
  · simp [initialConn, hp]
  · have h1 : (initialConn server (some p) ssl).port = p := by simp [initialConn, hp]
    rw [h1] at hEq
    exact hEq.symm

theorem C9_recovery_drops_port_witness :
    (initialConn "imap.example.com" (some 1234) true).port = 1234 ∧
    (recoveryConn "imap.example.com" true).port
      = (if true then imap4_ssl_default_port else imap4_default_port) ∧
    (recoveryConn "imap.example.com" true).port
      ≠ (initialConn "imap.example.com" (some 1234) true).port :=
  C9_recovery_drops_port "imap.example.com" 1234 true (by decide) (by decide)

/-- Once `gss_step` has left the STEP state, further callback invocations
leave the authentication sub-state untouched. -/
theorem runGssAuth_wrap_fixed (st : GssState) (hst : st.gss_step = GSS_STATE_WRAP)
    (f : Nat) : ∀ ds, runGssAuth st f ds = st := by
  intro ds
  induction ds with
  | nil => rfl
  | cons d ds ih =>
    have hstep : gssauthStep st f d = st := by
      simp [gssauthStep, hst, GSS_STATE_WRAP, GSS_STATE_STEP]
    simp only [runGssAuth, hstep]
    exact ih

/-- An exchange in which the mechanism eventually signals completion ends
in the WRAP state, holding the context created at the first invocation. -/
theorem runGssAuth_reaches_wrap (f : Nat) :
    ∀ (ds : List Bool) (vc : Option Nat), true ∈ ds →
      runGssAuth { gss_step := GSS_STATE_STEP, gss_vc := vc } f ds
        = { gss_step := GSS_STATE_WRAP, gss_vc := some (vc.getD f) } := by
  intro ds
  induction ds with
  | nil => intro vc h; simp at h
  | cons d ds ih =>
    intro vc h
    cases d with
    | true =>
      have hstep : gssauthStep { gss_step := GSS_STATE_STEP, gss_vc := vc } f true
          = { gss_step := GSS_STATE_WRAP, gss_vc := some (vc.getD f) } := by
        simp [gssauthStep]
      simp only [runGssAuth, hstep]
      exact runGssAuth_wrap_fixed _ rfl f ds
    | false =>
      have hmem : true ∈ ds := by
        rcases List.mem_cons.mp h with h1 | h1
        · exact absurd h1 (by decide)
        · exact h1
      have hstep : gssauthStep { gss_step := GSS_STATE_STEP, gss_vc := vc } f false
          = { gss_step := GSS_STATE_STEP, gss_vc := some (vc.getD f) } := by
        simp [gssauthStep]
      simp only [runGssAuth, hstep]
      rw [ih (some (vc.getD f)) hmem]
      simp

/-- C10: the extended-auth state machine is never reset after a completed
exchange, including on session recovery — after an initial GSSAPI
authentication whose mechanism signalled completion (reaching the WRAP
state), the rebuild performed by the recovery path leaves `gss_step` and
`gss_vc` untouched, so the re-authentication callback starts in WRAP with
the stale security context (never creating a fresh one), rather than
restarting from STEP with a fresh context as `__init__` does. -/
theorem C10_gss_state_not_reset (freshVc : Nat) (ds : List Bool) (hds : true ∈ ds)
    (h : Handler) (hgss : h.gss = runGssAuth initGssState freshVc ds) :
    h.gss = { gss_step := GSS_STATE_WRAP, gss_vc := some freshVc } ∧
    (recoverRebuild h).gss = h.gss ∧
    (∀ freshVc2 stepDone,
      gssauthStep (recoverRebuild h).gss freshVc2 stepDone = h.gss) ∧
    h.gss ≠ initGssState := by
  have hwrap : h.gss = { gss_step := GSS_STATE_WRAP, gss_vc := some freshVc } := by
    rw [hgss]
    exact runGssAuth_reaches_wrap freshVc ds none hds
  refine ⟨hwrap, rfl, ?_, ?_⟩
  · intro freshVc2 stepDone
    rw [show (recoverRebuild h).gss = h.gss from rfl, hwrap]
    simp [gssauthStep, GSS_STATE_WRAP, GSS_STATE_STEP]
  · rw [hwrap]
    simp [initGssState, GSS_STATE_WRAP]

/-- A handler whose initial GSSAPI exchange completed (the mechanism
signalled completion at the second challenge), with context identifier 7. -/
def handlerAfterAuth : Handler :=
  { server := "imap.example.com",
    imap := { host := "imap.example.com", port := 993, ssl := true },
    gss := runGssAuth initGssState 7 [false, true],
    gssapi := true }

theorem C10_gss_state_not_reset_witness :
    handlerAfterAuth.gss = { gss_step := GSS_STATE_WRAP, gss_vc := some 7 } ∧
    (recoverRebuild handlerAfterAuth).gss = handlerAfterAuth.gss ∧
    (∀ freshVc2 stepDone,
      gssauthStep (recoverRebuild handlerAfterAuth).gss freshVc2 stepDone
        = handlerAfterAuth.gss) ∧
    handlerAfterAuth.gss ≠ initGssState :=
  C10_gss_state_not_reset 7 [false, true] (by decide) handlerAfterAuth rfl

end Zephymap

